import Mathlib

/-!
Verification of the task-orchestration core of the Claude Code Telegram
Bridge repository: the per-project work queue (`src/queue_manager.py`),
the approval handshake (`src/approval_handler.py`), the persistent
scheduler (`src/scheduled_task_manager.py`), the Executor wrapper
(`src/claude_interface.py`) and the scheduler callback of
`src/telegram_bot.py`.

Each Python component is shallowly embedded as executable Lean
definitions; the asynchronous parts are embedded as labelled step
functions over explicit state, at the granularity of the cooperative
(asyncio) scheduling points of the source.
-/

namespace QueueModel

/--
Embedding of `QueuedTask` from `src/queue_manager.py` (lines 11-19).  The source
dataclass also carries a `callback` field holding a coroutine function;
a function value has no decidable representation, and the model tracks
callback invocations through trace events instead, so that field is not
materialised here.
-/
structure QueuedTask where
  project_name : String
  prompt : String
  image_paths : List String
  message_id : Int
  chat_id : Int
deriving DecidableEq, Repr

/--
The per-project entry of `QueueManager`'s dictionaries
(`src/queue_manager.py` lines 25-29) for one fixed project key:
`pending` is `self._queues[p]` (an `asyncio.Queue`, FIFO),
`current` is `self._current_tasks.get(p)`, and `procRunning` says
whether `self._processors[p]` exists and is not done.
-/
structure QState where
  pending : List QueuedTask
  current : Option QueuedTask
  procRunning : Bool
deriving DecidableEq, Repr

/-- The state before any task was enqueued for the project. -/
def initQ : QState := { pending := [], current := none, procRunning := false }

/--
The position computed by `QueueManager.enqueue` (lines 46-49):
`position = queue.qsize()` plus one if `self._current_tasks[p]` holds a
task (a dataclass instance is always truthy, `None` is falsy).
-/
def enqueuePosition (s : QState) : Nat :=
  s.pending.length + (if s.current.isSome then 1 else 0)

/--
Embedding of `QueueManager.enqueue` (lines 37-60) for one project key: compute the
position, `await queue.put(task)`, and start the processor task if none
is running (`if project_name not in self._processors or
self._processors[project_name].done()`).
-/
def enqueueOp (s : QState) (t : QueuedTask) : Nat × QState :=
  (enqueuePosition s,
   { pending := s.pending ++ [t], current := s.current, procRunning := true })

/--
The observable events of one project's queue, at the suspension points
of `QueueManager._process_queue` (lines 62-88):
`enq t` is a call to `enqueue`; `begin t` is the processor taking `t`
from the queue head and entering `await processor(task)` with
`self._current_tasks[p] = task` set; `finish t` is the `finally` block
(`self._current_tasks[p] = None; queue.task_done()`) after the
invocation returned or raised; `idleStop` is the 60-second
`asyncio.TimeoutError` branch taken with an empty queue (`break`).
-/
inductive QEvent where
  | enq (t : QueuedTask)
  | begin (t : QueuedTask)
  | finish (t : QueuedTask)
  | idleStop
deriving DecidableEq, Repr

/--
One step of the queue system.  Guards come from the source: the
processor only begins a task when it is running, nothing is in flight
and the task is the queue head; it only finishes the in-flight task;
it only stops idle when the queue is empty and nothing is in flight
(`except asyncio.TimeoutError: if queue.empty(): break` — the timeout
can only fire while the loop is parked on `queue.get()`, hence with
`_current_tasks[p]` equal to `None`).
-/
def qstep (s : QState) : QEvent → Option QState
  | .enq t => some (enqueueOp s t).2
  | .begin t =>
    match s.current, s.pending with
    | none, t0 :: rest =>
      if s.procRunning = true ∧ t0 = t then
        some { pending := rest, current := some t, procRunning := true }
      else none
    | _, _ => none
  | .finish t =>
    match s.current with
    | some t0 => if t0 = t then some { s with current := none } else none
    | none => none
  | .idleStop =>
    match s.current, s.pending with
    | none, [] => if s.procRunning = true then
        some { s with procRunning := false } else none
    | _, _ => none

/-- Run a sequence of events from a state; `none` if some step is not enabled. -/
def qrun (s : QState) : List QEvent → Option QState
  | [] => some s
  | e :: es =>
    match qstep s e with
    | some s2 => qrun s2 es
    | none => none

/-- The tasks enqueued in a trace, in order. -/
def enqueuedOf (tr : List QEvent) : List QueuedTask :=
  tr.filterMap (fun e => match e with | .enq t => some t | _ => none)

/-- The tasks handed to the processor callback in a trace, in order. -/
def begunOf (tr : List QEvent) : List QueuedTask :=
  tr.filterMap (fun e => match e with | .begin t => some t | _ => none)

/-- Recognises a `finish` event. -/
def isFinish : QEvent → Bool
  | .finish _ => true
  | _ => false

theorem qrun_cons (s0 : QState) (e : QEvent) (es : List QEvent) :
    qrun s0 (e :: es) = (qstep s0 e).bind (fun s2 => qrun s2 es) := by
  simp only [qrun]
  cases qstep s0 e <;> simp

theorem qrun_append (xs ys : List QEvent) : ∀ (s : QState),
    qrun s (xs ++ ys) = (qrun s xs).bind (fun s2 => qrun s2 ys) := by
  induction xs with
  | nil => intro s; simp [qrun]
  | cons e es ih =>
    intro s
    rw [List.cons_append, qrun_cons, qrun_cons]
    cases qstep s e with
    | none => simp
    | some s2 => simpa using ih s2

theorem enqueuedOf_cons (e : QEvent) (es : List QEvent) :
    enqueuedOf (e :: es) = enqueuedOf [e] ++ enqueuedOf es := by
  cases e <;> simp [enqueuedOf]

theorem begunOf_cons (e : QEvent) (es : List QEvent) :
    begunOf (e :: es) = begunOf [e] ++ begunOf es := by
  cases e <;> simp [begunOf]

/-- FIFO step invariant: each enabled step preserves
`pending-before ++ newly-enqueued = newly-begun ++ pending-after`. -/
theorem qstep_pending_eq (s0 s : QState) (e : QEvent)
    (h : qstep s0 e = some s) :
    s0.pending ++ enqueuedOf [e] = begunOf [e] ++ s.pending := by
  obtain ⟨pend, cur, run⟩ := s0
  cases e with
  | enq t =>
    simp only [qstep, enqueueOp, enqueuePosition, Option.some.injEq] at h
    subst h
    simp [enqueuedOf, begunOf]
  | begin t =>
    cases cur with
    | some u => simp [qstep] at h
    | none =>
      cases pend with
      | nil => simp [qstep] at h
      | cons t0 rest =>
        simp only [qstep] at h
        by_cases hg : run = true ∧ t0 = t
        · rw [if_pos hg] at h
          rw [Option.some.injEq] at h
          subst h
          simp [enqueuedOf, begunOf, hg.2]
        · rw [if_neg hg] at h; cases h
  | finish t =>
    cases cur with
    | none => simp [qstep] at h
    | some t0 =>
      simp only [qstep] at h
      by_cases hg : t0 = t
      · rw [if_pos hg] at h
        rw [Option.some.injEq] at h
        subst h
        simp [enqueuedOf, begunOf]
      · rw [if_neg hg] at h; cases h
  | idleStop =>
    cases cur with
    | some u => simp [qstep] at h
    | none =>
      cases pend with
      | cons t0 rest => simp [qstep] at h
      | nil =>
        simp only [qstep] at h
        by_cases hg : run = true
        · rw [if_pos hg] at h
          rw [Option.some.injEq] at h
          subst h
          simp [enqueuedOf, begunOf]
        · rw [if_neg hg] at h; cases h

/-- FIFO invariant: the enqueue order equals the begin order followed by
what is still pending. -/
theorem qrun_fifo : ∀ (tr : List QEvent) (s0 s : QState),
    qrun s0 tr = some s →
    s0.pending ++ enqueuedOf tr = begunOf tr ++ s.pending
  | [] => by
    intro s0 s h
    simp only [qrun, Option.some.injEq] at h
    subst h
    simp [enqueuedOf, begunOf]
  | e :: es => by
    intro s0 s h
    rw [qrun_cons, Option.bind_eq_some] at h
    obtain ⟨s2, hstep, hrest⟩ := h
    have h1 := qstep_pending_eq s0 s2 e hstep
    have h2 := qrun_fifo es s2 s hrest
    rw [enqueuedOf_cons, begunOf_cons, ← List.append_assoc, h1,
      List.append_assoc, h2, List.append_assoc]

/-- A `begin` step records the begun task as in flight. -/
theorem qstep_begin_current (s0 s : QState) (t : QueuedTask)
    (h : qstep s0 (QEvent.begin t) = some s) : s.current = some t := by
  obtain ⟨pend, cur, run⟩ := s0
  cases cur with
  | some u => simp [qstep] at h
  | none =>
    cases pend with
    | nil => simp [qstep] at h
    | cons t0 rest =>
      simp only [qstep] at h
      by_cases hg : run = true ∧ t0 = t
      · rw [if_pos hg] at h
        rw [Option.some.injEq] at h
        subst h
        rfl
      · rw [if_neg hg] at h; cases h

/-- A `begin` step is only enabled when nothing is in flight. -/
theorem qstep_begin_requires_idle (s0 s : QState) (t : QueuedTask)
    (h : qstep s0 (QEvent.begin t) = some s) : s0.current = none := by
  obtain ⟨pend, cur, run⟩ := s0
  cases cur with
  | some u => simp [qstep] at h
  | none => rfl

/-- A non-`finish` step keeps the in-flight task in flight. -/
theorem qstep_current_stable (s0 s : QState) (e : QEvent) (t : QueuedTask)
    (h : qstep s0 e = some s) (hnf : isFinish e = false)
    (hcur : s0.current = some t) : s.current = some t := by
  obtain ⟨pend, cur, run⟩ := s0
  cases e with
  | enq u =>
    simp only [qstep, enqueueOp, enqueuePosition, Option.some.injEq] at h
    subst h
    exact hcur
  | begin u =>
    have := qstep_begin_requires_idle _ _ _ h
    rw [hcur] at this
    cases this
  | finish u => simp [isFinish] at hnf
  | idleStop =>
    cases cur with
    | some v =>
      simp [qstep] at h
    | none => cases hcur

/-- While no `finish` event occurs, an in-flight task stays in flight. -/
theorem qrun_current_stable : ∀ (tr : List QEvent) (s0 s : QState)
    (t : QueuedTask),
    qrun s0 tr = some s →
    (∀ e ∈ tr, isFinish e = false) →
    s0.current = some t →
    s.current = some t
  | [] => by
    intro s0 s t h _ hcur
    simp only [qrun, Option.some.injEq] at h
    subst h
    exact hcur
  | e :: es => by
    intro s0 s t h hnf hcur
    rw [qrun_cons, Option.bind_eq_some] at h
    obtain ⟨s2, hstep, hrest⟩ := h
    have h2 := qstep_current_stable s0 s2 e t hstep
      (hnf e (List.mem_cons_self _ _)) hcur
    exact qrun_current_stable es s2 s t hrest
      (fun e2 he2 => hnf e2 (List.mem_cons_of_mem _ he2)) h2

/--
C1: For every project key and every sequence of tasks enqueued to that
key, the processor callback is invoked on those tasks in exactly the
order they were enqueued, and no two invocations for the same project
key overlap in time — at most one task of a project is in flight at
any moment, including across idle worker shutdown and lazy restart.
Formally, over every valid event trace of one project's queue from the
initial state: the enqueue order equals the callback-invocation order
followed by the still-pending tasks (so invocations happen in exactly
enqueue order), and between any two `begin` events there is a `finish`
event (so invocation intervals never overlap).  Traces may contain
`idleStop` and later `enq` events, covering idle shutdown and lazy
restart.
-/
theorem c1_fifo_no_overlap (tr : List QEvent) (s : QState)
    (h : qrun initQ tr = some s) :
    enqueuedOf tr = begunOf tr ++ s.pending ∧
    (∀ (a b c : List QEvent) (t t2 : QueuedTask),
      tr = a ++ QEvent.begin t :: (b ++ QEvent.begin t2 :: c) →
      ∃ e, e ∈ b ∧ isFinish e = true) := by
  constructor
  · have := qrun_fifo tr initQ s h
    simpa [initQ] using this
  · intro a b c t t2 htr
    by_contra hno
    push_neg at hno
    have hnf : ∀ e ∈ b, isFinish e = false := by
      intro e he
      have := hno e he
      cases hf : isFinish e
      · rfl
      · exact absurd hf this
    have hsplit : tr = a ++ ([QEvent.begin t] ++ (b ++ ([QEvent.begin t2] ++ c))) := by
      rw [htr]; simp
    rw [hsplit, qrun_append] at h
    rw [Option.bind_eq_some] at h
    obtain ⟨sa, _, h⟩ := h
    rw [qrun_append, Option.bind_eq_some] at h
    obtain ⟨sb, hb1, h⟩ := h
    rw [qrun_cons, Option.bind_eq_some] at hb1
    obtain ⟨sb2, hstep1, hnil1⟩ := hb1
    simp only [qrun, Option.some.injEq] at hnil1
    subst hnil1
    have hsb : sb2.current = some t := qstep_begin_current sa sb2 t hstep1
    rw [qrun_append, Option.bind_eq_some] at h
    obtain ⟨sc, hb2, h⟩ := h
    have hsc : sc.current = some t :=
      qrun_current_stable b sb2 sc t hb2 hnf hsb
    rw [qrun_append, Option.bind_eq_some] at h
    obtain ⟨sd, hb3, _⟩ := h
    rw [qrun_cons, Option.bind_eq_some] at hb3
    obtain ⟨sd2, hstep2, _⟩ := hb3
    have := qstep_begin_requires_idle sc sd2 t2 hstep2
    rw [hsc] at this
    cases this

/-- Concrete witness trace for `c1_fifo_no_overlap`, exercising two
tasks processed in order, an idle shutdown and a lazy restart. -/
def wtA : QueuedTask :=
  { project_name := "web", prompt := "a", image_paths := [],
    message_id := 1, chat_id := 10 }

/-- Second witness task. -/
def wtB : QueuedTask :=
  { project_name := "web", prompt := "b", image_paths := [],
    message_id := 2, chat_id := 10 }

/-- Third witness task, enqueued after the idle shutdown. -/
def wtC : QueuedTask :=
  { project_name := "web", prompt := "c", image_paths := [],
    message_id := 3, chat_id := 10 }

/-- Witness trace: enqueue A, start A, enqueue B, finish A, start B,
finish B, idle shutdown, enqueue C (restart), start C. -/
def wtr : List QEvent :=
  [QEvent.enq wtA, QEvent.begin wtA, QEvent.enq wtB, QEvent.finish wtA,
   QEvent.begin wtB, QEvent.finish wtB, QEvent.idleStop, QEvent.enq wtC,
   QEvent.begin wtC]

/-- Final state of the witness trace. -/
def wtrEnd : QState :=
  { pending := [], current := some wtC, procRunning := true }

/-- Witness for `c1_fifo_no_overlap` on the concrete trace `wtr`. -/
theorem c1_fifo_no_overlap_witness :
    qrun initQ wtr = some wtrEnd ∧
    (enqueuedOf wtr = begunOf wtr ++ wtrEnd.pending ∧
     (∀ (a b c : List QEvent) (t t2 : QueuedTask),
       wtr = a ++ QEvent.begin t :: (b ++ QEvent.begin t2 :: c) →
       ∃ e, e ∈ b ∧ isFinish e = true)) :=
  ⟨by decide, c1_fifo_no_overlap wtr wtrEnd (by decide)⟩

/--
C6: For every task and project, `enqueue(task)` returns `0` when the
project's queue was empty and no task of that project is in flight (the
new task is then at the queue head, becoming active immediately);
otherwise it returns the queue depth before insertion plus `1` if a
task is in flight and plus `0` if not.  (`src/queue_manager.py` lines
37-60.)
-/
theorem c6_enqueue_position (s : QState) (t : QueuedTask) :
    (enqueueOp s t).1
      = s.pending.length + (if s.current.isSome then 1 else 0) ∧
    ((enqueueOp s t).1 = 0 ↔ (s.pending = [] ∧ s.current = none)) ∧
    (enqueueOp s t).2.pending = s.pending ++ [t] := by
  refine ⟨rfl, ?_, rfl⟩
  cases hc : s.current with
  | none =>
    simp [enqueueOp, enqueuePosition, hc, List.length_eq_zero]
  | some u =>
    simp [enqueueOp, enqueuePosition, hc]

end QueueModel

namespace ApprovalModel

/--
Embedding of `PendingApproval` from `src/approval_handler.py` (lines 14-23).  The
`event : asyncio.Event` field is a wait-signal; the model represents
the outcome of waiting on it by `WaitOutcome` below instead of
materialising the event object.  `tool_input` is a JSON-like dict,
modelled as an association list.
-/
structure PendingApproval where
  project_name : String
  tool_name : String
  tool_input : List (String × String)
  message_id : Int
  chat_id : Int
  approved : Option Bool := none
deriving DecidableEq, Repr

/-- The `_pending` dict of `ApprovalHandler` (line 33), keyed by the
string `"chat_id:message_id"`, modelled as an association list with
distinct keys maintained by `dictSet`/`dictPop`. -/
abbrev AState : Type := List (String × PendingApproval)

/-- Dict lookup (`self._pending.get(key)`). -/
def dictGet (st : AState) (k : String) : Option PendingApproval :=
  (st.find? (fun p => p.1 = k)).map (fun p => p.2)

/-- Dict key removal (`self._pending.pop(key, None)`). -/
def dictPop (st : AState) (k : String) : AState :=
  st.filter (fun p => ¬ p.1 = k)

/-- Dict assignment (`self._pending[key] = approval`). -/
def dictSet (st : AState) (k : String) (v : PendingApproval) : AState :=
  dictPop st k ++ [(k, v)]

/-- Embedding of `ApprovalHandler._make_key` (lines 35-37): the string
`f"{chat_id}:{message_id}"`. -/
def make_key (chat_id message_id : Int) : String :=
  toString chat_id ++ ":" ++ toString message_id

/-- The hard-coded `timeout=300` of the `asyncio.wait_for` call in
`request_approval` (line 73). -/
def approvalTimeout : Nat := 300

/-- Outcome of `await asyncio.wait_for(approval.event.wait(), timeout=300)`:
either `handle_callback` set `approved := b` and fired the event before
the timeout elapsed (`decided b`), or the wait timed out (`timedOut`).
No other code path sets the event, and `handle_callback` always assigns
`approved` before `event.set()` (lines 104-119), so a fired event always
carries a Boolean decision. -/
inductive WaitOutcome where
  | decided (b : Bool)
  | timedOut
deriving DecidableEq, Repr

/--
Embedding of `ApprovalHandler.request_approval` (lines 49-79): build the
`PendingApproval`, register it under `make_key chat_id message_id`,
wait for the decision or the timeout, return `approval.approved is
True`, and in the `finally` block pop the key unconditionally.  The
returned pair is (returned Boolean, `_pending` dict after the call).
-/
def request_approval (st : AState) (project_name tool_name : String)
    (tool_input : List (String × String)) (message_id chat_id : Int)
    (outcome : WaitOutcome) : Bool × AState :=
  let key := make_key chat_id message_id
  let approval : PendingApproval :=
    { project_name := project_name, tool_name := tool_name,
      tool_input := tool_input, message_id := message_id,
      chat_id := chat_id, approved := none }
  let registered := dictSet st key approval
  let result := match outcome with
    | .decided b => b
    | .timedOut => false
  (result, dictPop registered key)

/-- Result of `ApprovalHandler.handle_callback` (lines 81-119), as seen
by the Telegram transport: which early return was taken, or the edited
status text on resolution. -/
inductive CallbackOutcome where
  | noQuery
  | noMessage
  | expired
  | resolved (approvedFlag : Bool) (status : String)
deriving DecidableEq, Repr

/--
Embedding of `ApprovalHandler.handle_callback` (lines 81-119): missing query or
message cause early returns; an absent key edits the message to
"This approval request has expired." and returns without touching the
dict; otherwise `approved` is set to whether `query.data` equals
`"approve"` (any other callback data denies), the message is edited to
Approved/Denied, and the waiter's event is set (modelled by the waiting
`request_approval` call receiving `WaitOutcome.decided b`).  The
function is total: no input raises.
-/
def handle_callback (st : AState) (hasQuery hasMessage : Bool)
    (chat_id message_id : Int) (data : String) :
    AState × CallbackOutcome :=
  if hasQuery = false then (st, .noQuery)
  else if hasMessage = false then (st, .noMessage)
  else
    let key := make_key chat_id message_id
    match dictGet st key with
    | none => (st, .expired)
    | some approval =>
      let b := data = "approve"
      let status := if data = "approve" then "Approved" else "Denied"
      (dictSet st key { approval with approved := some (decide b) },
       .resolved (decide b) status)

theorem dictGet_pop (st : AState) (k : String) :
    dictGet (dictPop st k) k = none := by
  unfold dictGet dictPop
  rw [Option.map_eq_none', List.find?_eq_none]
  intro p hp
  rw [List.mem_filter] at hp
  have h2 := hp.2
  simp only [decide_eq_true_eq] at h2 ⊢
  exact h2

theorem dictPop_set_pop (st : AState) (k : String) (v : PendingApproval) :
    dictPop (dictSet st k v) k = dictPop st k := by
  unfold dictSet dictPop
  rw [List.filter_append]
  simp [List.filter_filter]

/--
C3: `request_approval` registers a pending approval keyed by
(chat id, message id), blocks until the decision is set or the
300-time-unit timeout elapses, returns `true` if and only if the
decision was explicitly approved (denial and timeout both return
`false`), and removes the pending registration unconditionally on
return, so a decision delivered after the timeout can never resolve
that request: a later `handle_callback` for the same key finds no
entry, reports "expired" and leaves the dict unchanged.
-/
theorem c3_request_approval (st : AState) (project_name tool_name : String)
    (tool_input : List (String × String)) (message_id chat_id : Int)
    (outcome : WaitOutcome) (data : String) :
    ((request_approval st project_name tool_name tool_input message_id
        chat_id outcome).1 = true
      ↔ outcome = WaitOutcome.decided true) ∧
    (request_approval st project_name tool_name tool_input message_id
        chat_id outcome).2 = dictPop st (make_key chat_id message_id) ∧
    dictGet (request_approval st project_name tool_name tool_input
        message_id chat_id outcome).2 (make_key chat_id message_id)
      = none ∧
    handle_callback (request_approval st project_name tool_name tool_input
        message_id chat_id outcome).2 true true chat_id message_id data
      = ((request_approval st project_name tool_name tool_input message_id
          chat_id outcome).2, CallbackOutcome.expired) ∧
    approvalTimeout = 300 := by
  have h2 : (request_approval st project_name tool_name tool_input
      message_id chat_id outcome).2
      = dictPop st (make_key chat_id message_id) := by
    simp only [request_approval]
    exact dictPop_set_pop st _ _
  refine ⟨?_, h2, ?_, ?_, rfl⟩
  · constructor
    · intro h
      cases outcome with
      | decided b =>
        cases b
        · simp [request_approval] at h
        · rfl
      | timedOut => simp [request_approval] at h
    · intro h
      subst h
      rfl
  · rw [h2]; exact dictGet_pop st _
  · simp only [handle_callback, h2, dictGet_pop st (make_key chat_id message_id)]
    simp

/--
C8: a `handle_callback` (resolve) call for a (chat id, message id) key
with no pending entry — one already resolved or expired — is a no-op
that signals expiration and does not raise (the embedding is a total
function), and a second resolve after the entry's removal is likewise
the same no-op rather than an error.  Every state with the key absent
is of the form `dictPop st key` (removal is idempotent), so the
statement covers all such states.
-/
theorem c8_resolve_absent_noop (st : AState) (chat_id message_id : Int)
    (data : String) :
    handle_callback (dictPop st (make_key chat_id message_id)) true true
        chat_id message_id data
      = (dictPop st (make_key chat_id message_id),
         CallbackOutcome.expired) ∧
    handle_callback
        (handle_callback (dictPop st (make_key chat_id message_id)) true
          true chat_id message_id data).1 true true chat_id message_id data
      = (dictPop st (make_key chat_id message_id),
         CallbackOutcome.expired) := by
  have h1 : handle_callback (dictPop st (make_key chat_id message_id)) true
      true chat_id message_id data
      = (dictPop st (make_key chat_id message_id),
         CallbackOutcome.expired) := by
    simp only [handle_callback, dictGet_pop st (make_key chat_id message_id)]
    simp
  exact ⟨h1, by rw [h1]; exact h1⟩

end ApprovalModel

namespace SchedModel

/--
The fragment of Python's `datetime.datetime` used by
`src/scheduled_task_manager.py`: an absolute day number together with a
time of day.  Day `0` is a Monday, so `weekday` (Python's
`datetime.weekday()`, Monday = 0 .. Sunday = 6) is `day % 7`.
Chronological comparison is lexicographic on
(day, hour, minute, second, microsecond).
-/
structure PyDateTime where
  day : Nat
  hour : Nat
  minute : Nat
  second : Nat
  microsecond : Nat
deriving DecidableEq, Repr

/-- Python `datetime.weekday()`: Monday = 0 .. Sunday = 6. -/
def PyDateTime.weekday (d : PyDateTime) : Nat := d.day % 7

/-- Python `a < b` on datetimes (chronological order). -/
def PyDateTime.ltb (a b : PyDateTime) : Bool :=
  decide (a.day < b.day ∨ (a.day = b.day ∧
    (a.hour < b.hour ∨ (a.hour = b.hour ∧
      (a.minute < b.minute ∨ (a.minute = b.minute ∧
        (a.second < b.second ∨ (a.second = b.second ∧
          a.microsecond < b.microsecond))))))))

/-- Python `a <= b` on datetimes; the order is total, so `a <= b` is
`not (b < a)`. -/
def PyDateTime.leb (a b : PyDateTime) : Bool := !(PyDateTime.ltb b a)

/-- Python `dt.replace(hour=h, minute=m, second=0, microsecond=0)` as used in
`_calculate_next_run` (lines 241-246 and 259-264). -/
def PyDateTime.replaceHM (d : PyDateTime) (h m : Nat) : PyDateTime :=
  { day := d.day, hour := h, minute := m, second := 0, microsecond := 0 }

/-- Python `dt + timedelta(days=k)` for a non-negative number of days. -/
def PyDateTime.addDays (d : PyDateTime) (k : Nat) : PyDateTime :=
  { d with day := d.day + k }

/--
Embedding of `ScheduledTask` from `src/scheduled_task_manager.py` (lines 15-36).
The source stores `next_run` and `last_run` as ISO-8601 strings and
converts with `datetime.fromisoformat` / `datetime.isoformat`, which
are mutually inverse on the values the manager writes; the embedding
therefore carries the datetime values themselves.
-/
structure ScheduledTask where
  task_id : String
  chat_id : Int
  project_name : String
  prompt : String
  schedule_type : String
  next_run : PyDateTime
  enabled : Bool
  time_of_day : String
  day_of_week : Option Nat
  last_run : Option PyDateTime
deriving DecidableEq, Repr

/-- Character-level splitting on a separator, the semantics of Python
`str.split(c)` (and of `String.splitOn` restricted to a one-character
separator), written by structural recursion so that it reduces inside
the kernel. -/
def splitOnCharAux (c : Char) : List Char → List Char → List (List Char)
  | [], acc => [acc.reverse]
  | x :: xs, acc =>
    if x = c then acc.reverse :: splitOnCharAux c xs []
    else splitOnCharAux c xs (x :: acc)

/-- Python `int(s)` on a plain string of ASCII digits; `none` where
`int` raises `ValueError` (empty string or a non-digit character; the
inputs at hand never use signs or whitespace). -/
def digitsToNatAux : List Char → Nat → Option Nat
  | [], acc => some acc
  | c :: cs, acc =>
    if c.isDigit then digitsToNatAux cs (acc * 10 + (c.toNat - 48))
    else none

/-- See `digitsToNatAux`; the empty string is a `ValueError`. -/
def pyInt? : List Char → Option Nat
  | [] => none
  | l => digitsToNatAux l 0

/--
Embedding of `hour, minute = map(int, task.time_of_day.split(":"))` (line 237):
splitting on `":"` must yield exactly two parts, each parsed by `int`;
a failure (wrong arity or non-numeric part) raises `ValueError` in
Python, embedded as `Except.error`.
-/
def parseTimeOfDay (s : String) : Except String (Nat × Nat) :=
  match (splitOnCharAux ':' s.data []).map pyInt? with
  | [some h, some m] => Except.ok (h, m)
  | _ => Except.error "ValueError"

/--
Embedding of `ScheduledTaskManager._calculate_next_run` (lines 219-268).  Returns
`Except.error` where Python raises (malformed `time_of_day`),
`Except.ok none` where Python returns `None` (kind `once`, or an
unrecognised kind), and `Except.ok (some d)` for the computed next
occurrence.  The weekly branch reads
`target_day = task.day_of_week or 0` — `None` and `0` both give `0` —
then `days_ahead = target_day - from_time.weekday()`, bumped by 7 when
`days_ahead <= 0`.
-/
def calculateNextRun (task : ScheduledTask) (from_time : PyDateTime) :
    Except String (Option PyDateTime) :=
  if task.schedule_type = "once" then Except.ok none
  else
    match parseTimeOfDay task.time_of_day with
    | Except.error e => Except.error e
    | Except.ok (hour, minute) =>
      if task.schedule_type = "daily" then
        let next_run := from_time.replaceHM hour minute
        Except.ok (some (if next_run.leb from_time then next_run.addDays 1
          else next_run))
      else if task.schedule_type = "weekly" then
        let target_day : Nat := task.day_of_week.getD 0
        let days_ahead : Int := (target_day : Int) - (from_time.weekday : Int)
        let days_ahead : Int := if days_ahead ≤ 0 then days_ahead + 7
          else days_ahead
        Except.ok (some ((from_time.replaceHM hour minute).addDays
          days_ahead.toNat))
      else Except.ok none

/--
Modelled from the spec words for the `weekly` rule, for comparison with
`calculateNextRun`: the next occurrence of `day_of_week` at
`time_of_day` strictly after `now` — the least datetime with the given
weekday, the given time of day, and seconds and microseconds zero that
is strictly greater than `now`.
-/
def specNextWeeklyOccurrence (dayOfWeek hour minute : Nat)
    (now : PyDateTime) : PyDateTime :=
  let k := (dayOfWeek + 7 - now.weekday) % 7
  let cand : PyDateTime :=
    { day := now.day + k, hour := hour, minute := minute, second := 0,
      microsecond := 0 }
  if now.ltb cand then cand else cand.addDays 7

end SchedModel

namespace SchedModel

/--
Result of one pass of the `for task in list(self._tasks.values())` loop
in `ScheduledTaskManager._run_scheduler` (lines 177-217):
`tasks` is the in-memory task list afterwards (the dict values in
order), `executed` the ids passed to the due-task callback, `cbErrors`
the ids whose callback raised (caught and logged at lines 196-197),
`saveAttempts` how many times `_save` was entered, and `raised` the
exception that escaped the `for` loop, if any (a `ValueError` from
`_calculate_next_run` or an I/O error from `_save`); `_run_scheduler`
catches it at line 215 and only logs it.
-/
structure TickResult where
  tasks : List ScheduledTask
  executed : List String
  cbErrors : List String
  saveAttempts : Nat
  raised : Option String
deriving DecidableEq, Repr

/-- The update of a due task after its callback ran (lines 199-207):
`last_run = now`, then either the new `next_run` is stored or — when
`_calculate_next_run` returned `None` — the task is disabled with
`next_run` left unchanged as a historical marker. -/
def dueUpdate (now : PyDateTime) (t : ScheduledTask)
    (newNext : Option PyDateTime) : ScheduledTask :=
  match newNext with
  | none => { t with last_run := some now, enabled := false }
  | some d => { t with last_run := some now, next_run := d }

/--
One iteration of the scheduler loop body over the task list.
`cbRaises id` says whether the due-task callback raises for that task
(the callback result is otherwise unused by the loop); `saveResults`
supplies the outcome of each successive `_save` call (`_save`, lines
72-78, has no exception handling of its own — a failing write raises).
Per due enabled task, in source order: run the callback (exceptions
caught), set `last_run = now`, recompute `next_run` via
`_calculate_next_run` (a raise aborts the loop), store the new
`next_run` or disable the task when the recompute returns `None`, then
`_save()` (a raise aborts the loop).  Disabled and not-yet-due tasks
are left untouched.
-/
def runTick (now : PyDateTime) (cbRaises : String → Bool)
    (saveResults : List (Except String Unit)) :
    List ScheduledTask → TickResult
  | [] => { tasks := [], executed := [], cbErrors := [], saveAttempts := 0,
            raised := none }
  | t :: rest =>
    if t.enabled = false then
      let r := runTick now cbRaises saveResults rest
      { r with tasks := t :: r.tasks }
    else if t.next_run.leb now = false then
      let r := runTick now cbRaises saveResults rest
      { r with tasks := t :: r.tasks }
    else
      let cbErr := if cbRaises t.task_id then [t.task_id] else []
      match calculateNextRun { t with last_run := some now } now with
      | Except.error e =>
        { tasks := { t with last_run := some now } :: rest,
          executed := [t.task_id], cbErrors := cbErr,
          saveAttempts := 0, raised := some e }
      | Except.ok newNext =>
        match saveResults with
        | Except.error e :: _ =>
          { tasks := dueUpdate now t newNext :: rest,
            executed := [t.task_id], cbErrors := cbErr,
            saveAttempts := 1, raised := some e }
        | sv =>
          let r := runTick now cbRaises sv.tail rest
          { tasks := dueUpdate now t newNext :: r.tasks,
            executed := t.task_id :: r.executed,
            cbErrors := cbErr ++ r.cbErrors,
            saveAttempts := r.saveAttempts + 1, raised := r.raised }

/--
One full iteration of `_run_scheduler`'s `while` body as observed from
outside: the `except Exception` handler at lines 215-217 logs any
exception that escaped the `for` loop and keeps running, so the
iteration never raises; only the updated task list and the executed
ids are visible.
-/
def schedulerIteration (now : PyDateTime) (cbRaises : String → Bool)
    (saveResults : List (Except String Unit))
    (tasks : List ScheduledTask) : List ScheduledTask × List String :=
  let r := runTick now cbRaises saveResults tasks
  (r.tasks, r.executed)

/-- The `ScheduledTask` built by `ScheduledTaskManager.create_task`
(lines 104-116); `newId` stands for `uuid.uuid4().hex[:8]`. -/
def mkNewTask (newId : String) (chat_id : Int)
    (project_name prompt schedule_type : String) (run_time : PyDateTime)
    (time_of_day : String) (day_of_week : Option Nat) : ScheduledTask :=
  { task_id := newId, chat_id := chat_id, project_name := project_name,
    prompt := prompt, schedule_type := schedule_type, next_run := run_time,
    enabled := true, time_of_day := time_of_day,
    day_of_week := day_of_week, last_run := none }

/--
Embedding of `ScheduledTaskManager.create_task` (lines 80-120): insert the new task
into `self._tasks`, then `self._save()`.  The first component is the
in-memory task list after the call (the insertion happens before the
write and is not rolled back); the second is what the caller sees —
the created task, or the propagated exception when the write fails
(`_save` has no handler and `create_task` none either).
-/
def create_task (tasks : List ScheduledTask) (newId : String)
    (chat_id : Int) (project_name prompt schedule_type : String)
    (run_time : PyDateTime) (time_of_day : String)
    (day_of_week : Option Nat) (saveResult : Except String Unit) :
    List ScheduledTask × Except String ScheduledTask :=
  let task := mkNewTask newId chat_id project_name prompt schedule_type
    run_time time_of_day day_of_week
  (tasks ++ [task], saveResult.map (fun _ => task))

/--
Embedding of `ScheduledTaskManager.delete_task` (lines 122-136): if the id is
present, remove it and `self._save()` (a failing write propagates to
the caller after the removal); otherwise return `False` without
writing.
-/
def delete_task (tasks : List ScheduledTask) (task_id : String)
    (saveResult : Except String Unit) :
    List ScheduledTask × Except String Bool :=
  if tasks.any (fun u => u.task_id = task_id) then
    (tasks.filter (fun u => ¬ u.task_id = task_id),
     saveResult.map (fun _ => true))
  else (tasks, Except.ok false)

end SchedModel

namespace SchedModel

/-- The number of days the weekly branch of `calculateNextRun` jumps:
`days_ahead = target_day - weekday`, bumped by 7 when `<= 0`. -/
def weeklyDaysAhead (d wd : Nat) : Nat :=
  (if (d : Int) - (wd : Int) ≤ 0 then (d : Int) - (wd : Int) + 7
   else (d : Int) - (wd : Int)).toNat

theorem weeklyDaysAhead_eq (d wd : Nat) :
    weeklyDaysAhead d wd = if d ≤ wd then d + 7 - wd else d - wd := by
  unfold weeklyDaysAhead
  by_cases hdw : d ≤ wd
  · rw [if_pos (by omega : (d : Int) - (wd : Int) ≤ 0), if_pos hdw]
    omega
  · rw [if_neg (by omega : ¬ (d : Int) - (wd : Int) ≤ 0), if_neg hdw]
    omega

theorem calculateNextRun_weekly (t : ScheduledTask) (now : PyDateTime)
    (h m : Nat) (hw : t.schedule_type = "weekly")
    (hp : parseTimeOfDay t.time_of_day = Except.ok (h, m)) :
    calculateNextRun t now = Except.ok (some ((now.replaceHM h m).addDays
      (weeklyDaysAhead (t.day_of_week.getD 0) now.weekday))) := by
  unfold calculateNextRun weeklyDaysAhead
  rw [hw, hp]
  rfl

/-- Weekly witness task of the C4 counterexample: `day_of_week = 2`
(Wednesday), `time_of_day = "09:00"`. -/
def c4task : ScheduledTask :=
  { task_id := "t1", chat_id := 1, project_name := "web", prompt := "p",
    schedule_type := "weekly",
    next_run := { day := 0, hour := 0, minute := 0, second := 0,
                  microsecond := 0 },
    enabled := true, time_of_day := "09:00", day_of_week := some 2,
    last_run := none }

/-- C4 counterexample time: a Wednesday (day 2, day 0 being a Monday)
at 08:00 — `time_of_day` 09:00 has NOT yet passed. -/
def c4now : PyDateTime :=
  { day := 2, hour := 8, minute := 0, second := 0, microsecond := 0 }

/--
C4 counterexample: for a weekly task with `day_of_week = 2` processed
at Wednesday 08:00 with `time_of_day = "09:00"`, the next occurrence
of that weekday and time strictly after now is later the same day
(Wednesday 09:00), but `_calculate_next_run` jumps a full 7 days to
the following Wednesday 09:00 — `days_ahead = 2 - 2 = 0 <= 0` is
bumped to 7 regardless of whether the time of day has passed.  So the
recomputed `next_run` is NOT always the next occurrence of
`day_of_week` at `time_of_day` strictly after `now`.
-/
theorem c4_counterexample :
    calculateNextRun c4task c4now
      = Except.ok (some { day := 9, hour := 9, minute := 0, second := 0,
                          microsecond := 0 }) ∧
    specNextWeeklyOccurrence 2 9 0 c4now
      = { day := 2, hour := 9, minute := 0, second := 0,
          microsecond := 0 } ∧
    c4now.ltb { day := 2, hour := 9, minute := 0, second := 0,
                microsecond := 0 } = true ∧
    ({ day := 9, hour := 9, minute := 0, second := 0,
       microsecond := 0 } : PyDateTime)
      ≠ { day := 2, hour := 9, minute := 0, second := 0,
          microsecond := 0 } :=
  ⟨rfl, rfl, rfl, by decide⟩

/--
C4 (amended): for every weekly `ScheduledTask` processed at time `now`
(well-formed `time_of_day`, `day_of_week` in 0..6), the recomputed
`next_run` carries the requested hour and minute (seconds and
microseconds zero) and lands exactly `k` days after `now`'s date with
`1 ≤ k ≤ 7` and the requested weekday; when the target weekday equals
today's weekday, `k = 7` — a full 7 days forward, never 0 days, and
this regardless of whether `time_of_day` has already passed (this is
where the original claim fails); when the target weekday differs from
today's, the result is exactly the next occurrence of `day_of_week` at
`time_of_day` strictly after `now`.  In particular, with
`day_of_week=2`, now Wednesday 10:00 and `time_of_day` 09:00,
`next_run` becomes the following Wednesday 09:00 (witness below).
-/
theorem c4_weekly_next_run (t : ScheduledTask) (now : PyDateTime)
    (h m : Nat) (hw : t.schedule_type = "weekly")
    (hp : parseTimeOfDay t.time_of_day = Except.ok (h, m))
    (hd : t.day_of_week.getD 0 ≤ 6) :
    1 ≤ weeklyDaysAhead (t.day_of_week.getD 0) now.weekday ∧
    weeklyDaysAhead (t.day_of_week.getD 0) now.weekday ≤ 7 ∧
    calculateNextRun t now = Except.ok (some
      { day := now.day + weeklyDaysAhead (t.day_of_week.getD 0) now.weekday,
        hour := h, minute := m, second := 0, microsecond := 0 }) ∧
    (now.day + weeklyDaysAhead (t.day_of_week.getD 0) now.weekday) % 7
      = (t.day_of_week.getD 0) % 7 ∧
    (t.day_of_week.getD 0 = now.weekday →
      weeklyDaysAhead (t.day_of_week.getD 0) now.weekday = 7) ∧
    (¬ t.day_of_week.getD 0 = now.weekday →
      ({ day := now.day + weeklyDaysAhead (t.day_of_week.getD 0) now.weekday,
         hour := h, minute := m, second := 0, microsecond := 0 } : PyDateTime)
        = specNextWeeklyOccurrence (t.day_of_week.getD 0) h m now) := by
  have hwd : now.weekday ≤ 6 := by
    unfold PyDateTime.weekday
    omega
  rw [weeklyDaysAhead_eq] at *
  refine ⟨?_, ?_, ?_, ?_, ?_, ?_⟩
  · by_cases hdw : t.day_of_week.getD 0 ≤ now.weekday
    · rw [if_pos hdw]; omega
    · rw [if_neg hdw]; omega
  · by_cases hdw : t.day_of_week.getD 0 ≤ now.weekday
    · rw [if_pos hdw]; omega
    · rw [if_neg hdw]; omega
  · rw [calculateNextRun_weekly t now h m hw hp, weeklyDaysAhead_eq]
    rfl
  · unfold PyDateTime.weekday at *
    by_cases hdw : t.day_of_week.getD 0 ≤ now.day % 7
    · rw [if_pos hdw]; omega
    · rw [if_neg hdw]; omega
  · intro he
    rw [if_pos (le_of_eq he)]
    omega
  · intro hne
    simp only [specNextWeeklyOccurrence]
    have hlt : now.ltb
        { day := now.day + (t.day_of_week.getD 0 + 7 - now.weekday) % 7,
          hour := h, minute := m, second := 0, microsecond := 0 } = true := by
      unfold PyDateTime.ltb
      simp only [decide_eq_true_eq]
      left
      unfold PyDateTime.weekday at *
      omega
    rw [if_pos hlt]
    unfold PyDateTime.weekday at *
    by_cases hdw : t.day_of_week.getD 0 ≤ now.day % 7
    · rw [if_pos hdw]
      simp only [PyDateTime.mk.injEq, and_true, true_and]
      omega
    · rw [if_neg hdw]
      simp only [PyDateTime.mk.injEq, and_true, true_and]
      omega

end SchedModel

namespace SchedModel

/-- C4 witness time: the spec example — Wednesday (day 2) at 10:00,
with `time_of_day` 09:00 already passed. -/
def c4wNow : PyDateTime :=
  { day := 2, hour := 10, minute := 0, second := 0, microsecond := 0 }

/-- Witness for `c4_weekly_next_run` at the spec's own example:
`day_of_week = 2`, now Wednesday 10:00, `time_of_day = "09:00"`; the
recomputed `next_run` is the following Wednesday (day 9) at 09:00. -/
theorem c4_weekly_next_run_witness :
    (c4task.schedule_type = "weekly" ∧
     parseTimeOfDay c4task.time_of_day = Except.ok (9, 0) ∧
     c4task.day_of_week.getD 0 ≤ 6) ∧
    (1 ≤ weeklyDaysAhead (c4task.day_of_week.getD 0) c4wNow.weekday ∧
     weeklyDaysAhead (c4task.day_of_week.getD 0) c4wNow.weekday ≤ 7 ∧
     calculateNextRun c4task c4wNow = Except.ok (some
       { day := c4wNow.day
           + weeklyDaysAhead (c4task.day_of_week.getD 0) c4wNow.weekday,
         hour := 9, minute := 0, second := 0, microsecond := 0 }) ∧
     (c4wNow.day + weeklyDaysAhead (c4task.day_of_week.getD 0)
         c4wNow.weekday) % 7 = (c4task.day_of_week.getD 0) % 7 ∧
     (c4task.day_of_week.getD 0 = c4wNow.weekday →
       weeklyDaysAhead (c4task.day_of_week.getD 0) c4wNow.weekday = 7) ∧
     (¬ c4task.day_of_week.getD 0 = c4wNow.weekday →
       ({ day := c4wNow.day
            + weeklyDaysAhead (c4task.day_of_week.getD 0) c4wNow.weekday,
          hour := 9, minute := 0, second := 0,
          microsecond := 0 } : PyDateTime)
         = specNextWeeklyOccurrence (c4task.day_of_week.getD 0) 9 0
             c4wNow)) :=
  ⟨⟨rfl, rfl, by decide⟩, c4_weekly_next_run c4task c4wNow 9 0 rfl rfl
    (by decide)⟩

theorem dueUpdate_task_id (now : PyDateTime) (t : ScheduledTask)
    (newNext : Option PyDateTime) :
    (dueUpdate now t newNext).task_id = t.task_id := by
  cases newNext <;> rfl

/--
Once a task is disabled, no tick ever executes it again or re-enables
it: the loop skips disabled tasks, and no code path in the loop sets
`enabled = True`.  Stated for every task list in which every task
carrying the given id is disabled — the property is preserved by the
tick itself, so it holds for all subsequent ticks by iteration.
-/
theorem runTick_disabled_invariant :
    ∀ (tasks : List ScheduledTask) (now : PyDateTime)
      (cb : String → Bool) (sv : List (Except String Unit)) (id : String),
    (∀ u ∈ tasks, u.task_id = id → u.enabled = false) →
    id ∉ (runTick now cb sv tasks).executed ∧
    (∀ u ∈ (runTick now cb sv tasks).tasks,
      u.task_id = id → u.enabled = false) := by
  intro tasks
  induction tasks with
  | nil =>
    intro now cb sv id hdis
    simp [runTick]
  | cons t rest ih =>
    intro now cb sv id hdis
    have hdist := hdis t (List.mem_cons_self _ _)
    have hdis_rest : ∀ u ∈ rest, u.task_id = id → u.enabled = false :=
      fun u hu => hdis u (List.mem_cons_of_mem _ hu)
    obtain ⟨ihe, iht⟩ := ih now cb sv id hdis_rest
    by_cases h1 : t.enabled = false
    · simp only [runTick, if_pos h1]
      refine ⟨ihe, ?_⟩
      intro u hu
      rcases List.mem_cons.mp hu with h | h
      · subst h; exact fun _ => h1
      · exact iht u h
    · have htid : ¬ t.task_id = id := fun hid => h1 (hdist hid)
      by_cases h2 : t.next_run.leb now = false
      · simp only [runTick, if_neg h1, if_pos h2]
        refine ⟨ihe, ?_⟩
        intro u hu
        rcases List.mem_cons.mp hu with h | h
        · subst h; exact fun hid => absurd hid htid
        · exact iht u h
      · simp only [runTick, if_neg h1, if_neg h2]
        cases hc : calculateNextRun { t with last_run := some now } now with
        | error e =>
          simp only [hc]
          refine ⟨?_, ?_⟩
          · simp only [List.mem_singleton]
            exact fun hid => htid hid.symm
          · intro u hu
            rcases List.mem_cons.mp hu with h | h
            · subst h; exact fun hid => absurd hid htid
            · exact hdis_rest u h
        | ok newNext =>
          simp only [hc]
          have hdu : ¬ (dueUpdate now t newNext).task_id = id := by
            rw [dueUpdate_task_id]; exact htid
          match sv with
          | Except.error e :: svr =>
            refine ⟨?_, ?_⟩
            · simp only [List.mem_singleton]
              exact fun hid => htid hid.symm
            · intro u hu
              rcases List.mem_cons.mp hu with h | h
              · subst h; exact fun hid => absurd hid hdu
              · exact hdis_rest u h
          | [] =>
            obtain ⟨ihe2, iht2⟩ := ih now cb [] id hdis_rest
            refine ⟨?_, ?_⟩
            · intro hmem
              rcases List.mem_cons.mp hmem with h | h
              · exact htid h.symm
              · exact ihe2 h
            · intro u hu
              rcases List.mem_cons.mp hu with h | h
              · subst h; exact fun hid => absurd hid hdu
              · exact iht2 u h
          | Except.ok v :: svr =>
            obtain ⟨ihe2, iht2⟩ := ih now cb svr id hdis_rest
            refine ⟨?_, ?_⟩
            · intro hmem
              rcases List.mem_cons.mp hmem with h | h
              · exact htid h.symm
              · exact ihe2 h
            · intro u hu
              rcases List.mem_cons.mp hu with h | h
              · subst h; exact fun hid => absurd hid hdu
              · exact iht2 u h

end SchedModel

namespace SchedModel

/-- Unfolding of `runTick` on a single due enabled task: the task is
executed and updated (`dueUpdate`) whatever the save outcome. -/
theorem runTick_due_single (now : PyDateTime) (cb : String → Bool)
    (sv : List (Except String Unit)) (t : ScheduledTask)
    (newNext : Option PyDateTime)
    (h1 : t.enabled = true) (h3 : t.next_run.leb now = true)
    (hc : calculateNextRun { t with last_run := some now } now
      = Except.ok newNext) :
    (runTick now cb sv [t]).tasks = [dueUpdate now t newNext] ∧
    (runTick now cb sv [t]).executed = [t.task_id] := by
  simp only [runTick]
  rw [if_neg (by simp [h1]), if_neg (by simp [h3]), hc]
  rcases sv with _ | ⟨s0, svr⟩
  · exact ⟨rfl, rfl⟩
  · cases s0
    · exact ⟨rfl, rfl⟩
    · exact ⟨rfl, rfl⟩

/-- Whenever `_calculate_next_run` returns a datetime (daily or weekly
recurrence), that datetime is strictly after `from_time`. -/
theorem calcNextRun_gt (u : ScheduledTask) (now : PyDateTime)
    (d : PyDateTime)
    (h : calculateNextRun u now = Except.ok (some d)) :
    now.ltb d = true := by
  by_cases h1 : u.schedule_type = "once"
  · rw [calculateNextRun, if_pos h1] at h
    simp at h
  · cases hp : parseTimeOfDay u.time_of_day with
    | error e =>
      have hred : calculateNextRun u now = Except.error e := by
        unfold calculateNextRun
        rw [if_neg h1, hp]
      rw [hred] at h
      simp at h
    | ok hm =>
      obtain ⟨hh, mm⟩ := hm
      have hred : calculateNextRun u now
          = (if u.schedule_type = "daily" then
              Except.ok (some (if (now.replaceHM hh mm).leb now = true
                then (now.replaceHM hh mm).addDays 1
                else now.replaceHM hh mm))
            else if u.schedule_type = "weekly" then
              Except.ok (some ((now.replaceHM hh mm).addDays
                (weeklyDaysAhead (u.day_of_week.getD 0) now.weekday)))
            else Except.ok none) := by
        unfold calculateNextRun weeklyDaysAhead
        rw [if_neg h1, hp]
      rw [hred] at h
      by_cases h2 : u.schedule_type = "daily"
      · rw [if_pos h2] at h
        simp only [Except.ok.injEq, Option.some.injEq] at h
        by_cases hle : (now.replaceHM hh mm).leb now = true
        · rw [if_pos hle] at h
          subst h
          unfold PyDateTime.ltb PyDateTime.addDays PyDateTime.replaceHM
          simp only [decide_eq_true_eq]
          left
          omega
        · rw [if_neg hle] at h
          subst h
          have hle2 : PyDateTime.ltb now (now.replaceHM hh mm) = true := by
            cases hb : PyDateTime.ltb now (now.replaceHM hh mm)
            · exact absurd (by simp [PyDateTime.leb, hb]) hle
            · rfl
          exact hle2
      · rw [if_neg h2] at h
        by_cases h3 : u.schedule_type = "weekly"
        · rw [if_pos h3] at h
          simp only [Except.ok.injEq, Option.some.injEq] at h
          subst h
          rw [weeklyDaysAhead_eq]
          unfold PyDateTime.ltb PyDateTime.addDays PyDateTime.replaceHM
            PyDateTime.weekday
          simp only [decide_eq_true_eq]
          left
          split <;> omega
        · rw [if_neg h3] at h; simp at h

/--
C5: after the first due execution of a `ScheduledTask` of kind `once`,
the task has `enabled = false` with `next_run` left unchanged as a
historical marker (only `last_run` and `enabled` change), and no
subsequent scheduler tick ever selects it again: ticks skip disabled
tasks, never re-enable one, and never report its id as executed — for
any task list in which every task carrying this id is disabled, any
`now`, any callback behaviour and any save outcomes; since each tick
preserves that property, it holds for every later tick by iteration.
-/
theorem c5_once_never_again (t : ScheduledTask) (now : PyDateTime)
    (cb : String → Bool) (sv : List (Except String Unit))
    (h1 : t.enabled = true) (h2 : t.schedule_type = "once")
    (h3 : t.next_run.leb now = true) :
    (runTick now cb sv [t]).tasks
      = [{ t with last_run := some now, enabled := false }] ∧
    (runTick now cb sv [t]).executed = [t.task_id] ∧
    ({ t with last_run := some now, enabled := false } : ScheduledTask).next_run = t.next_run ∧
    (∀ (tasks : List ScheduledTask) (now2 : PyDateTime)
       (cb2 : String → Bool) (sv2 : List (Except String Unit)),
      (∀ u ∈ tasks, u.task_id = t.task_id → u.enabled = false) →
      t.task_id ∉ (runTick now2 cb2 sv2 tasks).executed ∧
      (∀ u ∈ (runTick now2 cb2 sv2 tasks).tasks,
        u.task_id = t.task_id → u.enabled = false)) := by
  have hcalc : calculateNextRun { t with last_run := some now } now
      = Except.ok none := by
    unfold calculateNextRun
    exact if_pos h2
  obtain ⟨ht, he⟩ := runTick_due_single now cb sv t none h1 h3 hcalc
  exact ⟨ht, he, rfl,
    fun tasks now2 cb2 sv2 hdis =>
      runTick_disabled_invariant tasks now2 cb2 sv2 t.task_id hdis⟩

/-- Witness `once` task for C5 and C7: due at `tickNow`. -/
def onceTask : ScheduledTask :=
  { task_id := "o1", chat_id := 5, project_name := "web",
    prompt := "backup", schedule_type := "once",
    next_run := { day := 5, hour := 9, minute := 0, second := 0,
                  microsecond := 0 },
    enabled := true, time_of_day := "", day_of_week := none,
    last_run := none }

/-- Witness tick time: 09:30 on day 5, past `onceTask`'s due time. -/
def tickNow : PyDateTime :=
  { day := 5, hour := 9, minute := 30, second := 0, microsecond := 0 }

/-- Witness for `c5_once_never_again` on a concrete due `once` task. -/
theorem c5_once_never_again_witness :
    (onceTask.enabled = true ∧ onceTask.schedule_type = "once" ∧
     onceTask.next_run.leb tickNow = true) ∧
    ((runTick tickNow (fun _ => false) [] [onceTask]).tasks
       = [{ onceTask with last_run := some tickNow, enabled := false }] ∧
     (runTick tickNow (fun _ => false) [] [onceTask]).executed
       = [onceTask.task_id] ∧
     ({ onceTask with last_run := some tickNow, enabled := false } : ScheduledTask).next_run = onceTask.next_run ∧
     (∀ (tasks : List ScheduledTask) (now2 : PyDateTime)
        (cb2 : String → Bool) (sv2 : List (Except String Unit)),
       (∀ u ∈ tasks, u.task_id = onceTask.task_id → u.enabled = false) →
       onceTask.task_id ∉ (runTick now2 cb2 sv2 tasks).executed ∧
       (∀ u ∈ (runTick now2 cb2 sv2 tasks).tasks,
         u.task_id = onceTask.task_id → u.enabled = false))) :=
  ⟨⟨rfl, rfl, by decide⟩,
   c5_once_never_again onceTask tickNow (fun _ => false) [] rfl rfl
     (by decide)⟩

/--
C10: when a due enabled `ScheduledTask`'s callback raises during a
tick, the scheduler still records the failure (caught and logged),
still sets `last_run = now`, still recomputes and stores `next_run`
(disabling the task when its kind is `once`), and still persists the
task set (exactly one save); the new state is either disabled or has
`next_run` strictly after `now`, so the failed scheduled execution is
never retried at the next tick.
-/
theorem c10_callback_failure_still_advances (t : ScheduledTask)
    (now : PyDateTime) (r : Option PyDateTime) (cb : String → Bool)
    (h1 : t.enabled = true) (h3 : t.next_run.leb now = true)
    (hc : calculateNextRun { t with last_run := some now } now
      = Except.ok r)
    (hcb : cb t.task_id = true) :
    runTick now cb [Except.ok ()] [t]
      = { tasks := [dueUpdate now t r], executed := [t.task_id],
          cbErrors := [t.task_id], saveAttempts := 1, raised := none } ∧
    (dueUpdate now t r).last_run = some now ∧
    ((dueUpdate now t r).enabled = false ∨
      now.ltb (dueUpdate now t r).next_run = true) := by
  refine ⟨?_, ?_, ?_⟩
  · simp only [runTick]
    rw [if_neg (by simp [h1]), if_neg (by simp [h3]), hc, hcb]
    rfl
  · cases r <;> rfl
  · cases r with
    | none => left; rfl
    | some d =>
      right
      have := calcNextRun_gt { t with last_run := some now } now d hc
      exact this

/-- Witness daily task for C10, due at `dailyNow`. -/
def dailyTask : ScheduledTask :=
  { task_id := "d1", chat_id := 5, project_name := "web",
    prompt := "report", schedule_type := "daily",
    next_run := { day := 3, hour := 9, minute := 0, second := 0,
                  microsecond := 0 },
    enabled := true, time_of_day := "09:00", day_of_week := none,
    last_run := none }

/-- Witness tick time for C10: 09:30 on day 3. -/
def dailyNow : PyDateTime :=
  { day := 3, hour := 9, minute := 30, second := 0, microsecond := 0 }

/-- Witness for `c10_callback_failure_still_advances`: a due daily
task whose callback raises; `next_run` still advances to 09:00 the
next day. -/
theorem c10_callback_failure_witness :
    (dailyTask.enabled = true ∧ dailyTask.next_run.leb dailyNow = true ∧
     calculateNextRun { dailyTask with last_run := some dailyNow }
         dailyNow
       = Except.ok (some { day := 4, hour := 9, minute := 0, second := 0,
                           microsecond := 0 }) ∧
     (fun (_ : String) => true) dailyTask.task_id = true) ∧
    (runTick dailyNow (fun _ => true) [Except.ok ()] [dailyTask]
       = { tasks := [dueUpdate dailyNow dailyTask
             (some { day := 4, hour := 9, minute := 0, second := 0,
                     microsecond := 0 })],
           executed := [dailyTask.task_id],
           cbErrors := [dailyTask.task_id], saveAttempts := 1,
           raised := none } ∧
     (dueUpdate dailyNow dailyTask
        (some { day := 4, hour := 9, minute := 0, second := 0,
                microsecond := 0 })).last_run = some dailyNow ∧
     ((dueUpdate dailyNow dailyTask
         (some { day := 4, hour := 9, minute := 0, second := 0,
                 microsecond := 0 })).enabled = false ∨
       dailyNow.ltb (dueUpdate dailyNow dailyTask
         (some { day := 4, hour := 9, minute := 0, second := 0,
                 microsecond := 0 })).next_run = true)) :=
  ⟨⟨rfl, by decide, rfl, rfl⟩,
   c10_callback_failure_still_advances dailyTask dailyNow
     (some { day := 4, hour := 9, minute := 0, second := 0,
             microsecond := 0 })
     (fun _ => true) rfl (by decide) rfl rfl⟩

end SchedModel

namespace SchedModel

/-- Concrete creation time used in the C7 counterexample. -/
def c7runTime : PyDateTime :=
  { day := 6, hour := 9, minute := 0, second := 0, microsecond := 0 }

/--
C7 counterexample: `_save` (lines 72-78) has no exception handling and
`create_task` (lines 80-120) none around its `self._save()` call, so
an I/O failure while writing the store during `create_task` IS raised
to the caller of the mutating operation — the call evaluates to the
propagated `Except.error`, not to the created task — refuting the
claim that such a failure is only logged and not raised.  (The
in-memory insertion, which happens before the write, is kept.)
-/
theorem c7_counterexample :
    (create_task [] "ab12cd34" 1 "web" "do it" "once" c7runTime "" none
        (Except.error "disk full")).2
      = Except.error "disk full" ∧
    (create_task [] "ab12cd34" 1 "web" "do it" "once" c7runTime "" none
        (Except.error "disk full")).1
      = [mkNewTask "ab12cd34" 1 "web" "do it" "once" c7runTime "" none] :=
  ⟨rfl, rfl⟩

/--
C7 (amended): an I/O failure while writing the scheduled-task store
leaves the in-memory task set authoritative — it keeps the mutation
that preceded the failed write — and the write is not retried
automatically; during a tick-driven mutation the failure is caught by
the scheduler loop's `except Exception` handler and only logged (the
iteration returns normally with the updated set, having attempted
exactly one save); but during `create_task` and `delete_task` the
failure propagates as an exception to the caller of the mutating
operation rather than being logged and swallowed (this is where the
original claim fails).
-/
theorem c7_save_failure (tasks : List ScheduledTask) (newId : String)
    (cid : Int) (pj pr st : String) (rt : PyDateTime) (tod : String)
    (dw : Option Nat) (e : String) (u t : ScheduledTask)
    (now : PyDateTime) (r : Option PyDateTime) (cb : String → Bool)
    (h1 : t.enabled = true) (h3 : t.next_run.leb now = true)
    (hc : calculateNextRun { t with last_run := some now } now
      = Except.ok r) :
    (create_task tasks newId cid pj pr st rt tod dw (Except.error e)).1
      = tasks ++ [mkNewTask newId cid pj pr st rt tod dw] ∧
    (create_task tasks newId cid pj pr st rt tod dw (Except.error e)).2
      = Except.error e ∧
    (delete_task [u] u.task_id (Except.error e)).1 = [] ∧
    (delete_task [u] u.task_id (Except.error e)).2 = Except.error e ∧
    schedulerIteration now cb [Except.error e] [t]
      = ([dueUpdate now t r], [t.task_id]) ∧
    (runTick now cb [Except.error e] [t]).saveAttempts = 1 ∧
    (runTick now cb [Except.error e] [t]).raised = some e := by
  have hdel1 : (delete_task [u] u.task_id (Except.error e)).1 = [] := by
    unfold delete_task
    rw [if_pos (by simp)]
    simp
  have hdel2 : (delete_task [u] u.task_id (Except.error e)).2
      = Except.error e := by
    unfold delete_task
    rw [if_pos (by simp)]
    rfl
  have hrt : runTick now cb [Except.error e] [t]
      = { tasks := [dueUpdate now t r], executed := [t.task_id],
          cbErrors := if cb t.task_id then [t.task_id] else [],
          saveAttempts := 1, raised := some e } := by
    simp only [runTick]
    rw [if_neg (by simp [h1]), if_neg (by simp [h3]), hc]
  refine ⟨rfl, rfl, hdel1, hdel2, ?_, ?_, ?_⟩
  · unfold schedulerIteration
    rw [hrt]
  · rw [hrt]
  · rw [hrt]

/-- Witness for `c7_save_failure`: a concrete due `once` task, a
present-id delete, and a failing write everywhere. -/
theorem c7_save_failure_witness :
    (onceTask.enabled = true ∧ onceTask.next_run.leb tickNow = true ∧
     calculateNextRun { onceTask with last_run := some tickNow } tickNow
       = Except.ok none) ∧
    ((create_task [] "ab12cd34" 7 "web" "hi" "daily" c7runTime "09:00"
        none (Except.error "disk full")).1
       = [] ++ [mkNewTask "ab12cd34" 7 "web" "hi" "daily" c7runTime
           "09:00" none] ∧
     (create_task [] "ab12cd34" 7 "web" "hi" "daily" c7runTime "09:00"
        none (Except.error "disk full")).2
       = Except.error "disk full" ∧
     (delete_task [onceTask] onceTask.task_id
        (Except.error "disk full")).1 = [] ∧
     (delete_task [onceTask] onceTask.task_id
        (Except.error "disk full")).2 = Except.error "disk full" ∧
     schedulerIteration tickNow (fun _ => false)
         [Except.error "disk full"] [onceTask]
       = ([dueUpdate tickNow onceTask none], [onceTask.task_id]) ∧
     (runTick tickNow (fun _ => false) [Except.error "disk full"]
        [onceTask]).saveAttempts = 1 ∧
     (runTick tickNow (fun _ => false) [Except.error "disk full"]
        [onceTask]).raised = some "disk full") :=
  ⟨⟨rfl, by decide, rfl⟩,
   c7_save_failure [] "ab12cd34" 7 "web" "hi" "daily" c7runTime "09:00"
     none "disk full" onceTask onceTask tickNow none (fun _ => false)
     rfl (by decide) rfl⟩

end SchedModel

namespace ClaudeModel

/--
Embedding of `ClaudeResult` from `src/claude_interface.py` (lines 28-35).
`permission_denials` is a JSON list of `{tool, input}` objects,
modelled as pairs.
-/
structure ClaudeResult where
  success : Bool
  output : String
  session_id : Option String := none
  permission_denials : List (String × String) := []
  error : Option String := none
deriving DecidableEq, Repr

/-- One content block of an assistant message, as inspected by
`_extract_assistant_content` (lines 261-275): a dict of type `"text"`
with a string text (`block.get("text", "")` already applied), a dict
of type `"text"` whose `"text"` value is present but NOT a string —
that value is appended to `text_parts` and the final
`"\n".join(text_parts)` raises `TypeError` — a dict of type
`"tool_use"` with its name (`block.get("name", "unknown")` already
applied), some other dict, or a non-dict entry (skipped by the
`isinstance(block, dict)` check). -/
inductive ContentBlock where
  | text (s : String)
  | textNonString
  | toolUse (name : String)
  | otherDict
  | nonDict
deriving DecidableEq, Repr

/-- The `"content"` entry of an assistant message's `"message"` dict,
as consumed by the `for block in content_blocks` loop of
`_extract_assistant_content`: absent (`message.get("content", [])`
yields `[]`), present but not iterable (a number, boolean or null —
the `for` raises `TypeError`), an iterable of non-dict items (a
string iterates its characters, a dict its keys: every item fails the
`isinstance(block, dict)` check and is skipped), or a JSON list of
blocks. -/
inductive JContentField where
  | absent
  | notIterable
  | iterNonDict
  | blocks (bs : List ContentBlock)
deriving DecidableEq, Repr

/-- The `"message"` entry of a JSON-object line, read only when the
line's type is `"assistant"`: absent (`data.get("message", {})` yields
`{}`), present but not a dict (null, a number, a string, a list —
`message.get("content", [])` raises `AttributeError`, because the
`{}` default applies only to a missing key), or a dict with its
`"content"` entry. -/
inductive JMessage where
  | absent
  | notDict
  | dictWith (content : JContentField)
deriving DecidableEq, Repr

/-- Embedding of `ClaudeInterface._extract_assistant_content` (lines
261-275) applied to a block list: text parts are collected for text
and tool-use blocks and joined with newlines; a text block whose
`"text"` value is not a string makes the final `"\n".join(text_parts)`
raise `TypeError`, embedded as `Except.error`. -/
def extract_assistant_content (blocks : List ContentBlock) :
    Except String String :=
  if blocks.any (fun b => match b with
      | ContentBlock.textNonString => true
      | _ => false) then
    Except.error "TypeError: sequence item: expected str instance"
  else
    Except.ok (String.intercalate "\n" (blocks.filterMap (fun b =>
      match b with
      | ContentBlock.text s => some s
      | ContentBlock.toolUse n => some ("[Using tool: " ++ n ++ "]")
      | _ => none)))

/-- Embedding of `ClaudeInterface._extract_assistant_content` from the
`"message"` entry down: a present non-dict message raises
`AttributeError` at `message.get("content", [])`; a dict message with
a non-iterable content raises `TypeError` at the `for` loop; an
absent message, an absent content and an iterable of non-dict items
all yield the empty join; a block list is handled by
`extract_assistant_content`.  None of these exceptions is caught
inside `_parse_output` (its `except` clause only covers
`json.JSONDecodeError`). -/
def extractFromMessage : JMessage → Except String String
  | JMessage.absent => Except.ok ""
  | JMessage.notDict =>
    Except.error "AttributeError: object has no attribute get"
  | JMessage.dictWith JContentField.absent => Except.ok ""
  | JMessage.dictWith JContentField.notIterable =>
    Except.error "TypeError: object is not iterable"
  | JMessage.dictWith JContentField.iterNonDict => Except.ok ""
  | JMessage.dictWith (JContentField.blocks bs) =>
    extract_assistant_content bs

/--
A parsed JSON-object line of the stream output, with the fields
`_parse_output` (lines 277-317) reads: `msgType` is `data.get("type")`;
`sessionField` is `none` when `"session_id"` is absent and
`some v` when present with value `v` (`some none` for a JSON null);
`resultField`/`denialsField` are the `"result"`/`"permission_denials"`
entries when present; `message` is the `"message"` entry, consulted
only for `"assistant"`-typed lines and possibly ill-typed (see
`JMessage` — an object line can still make parsing raise).
-/
structure JMsg where
  msgType : Option String
  sessionField : Option (Option String)
  resultField : Option String
  denialsField : Option (List (String × String))
  message : JMessage
deriving DecidableEq, Repr

/--
One line of the subprocess stdout as seen by the parsing loop of
`_parse_output`: `blank` (skipped by `if not line.strip()`), `nonJson`
(`json.loads` raises `JSONDecodeError`, caught — `continue`),
`jsonScalar` (a line that IS valid JSON but not an object, e.g. `3` or
`null`: `json.loads` succeeds and the following `data.get("type")`
raises `AttributeError`, which no handler inside `_parse_output`
catches), or a parsed JSON object `jsonMsg` — which can itself make
parsing raise when it is assistant-typed with an ill-typed
`"message"`/`"content"` (see `JMessage` and `ContentBlock`).
-/
inductive PLine where
  | blank
  | nonJson
  | jsonScalar
  | jsonMsg (m : JMsg)
deriving DecidableEq, Repr

/--
The parsing loop of `ClaudeInterface._parse_output` (lines 286-307)
with its running state: current session id, result text, permission
denials, and last assistant content.  An uncaught exception — the
`AttributeError` of a non-object JSON line, or an
`AttributeError`/`TypeError` from `_extract_assistant_content` on an
assistant line with an ill-typed message — propagates
(`Except.error`); the `if`/`elif` on `msg_type` mirrors lines
298-303; at the end the result is
`result_text or last_assistant_content` and the constructed
`ClaudeResult` always has `success=True` and `error=None` (lines
309-317).
-/
def parseOutputAux : List PLine → Option String → String →
    List (String × String) → String → Except String ClaudeResult
  | [], sid, resultText, denials, lastAssistant =>
    Except.ok { success := true,
                output := if resultText = "" then lastAssistant
                  else resultText,
                session_id := sid, permission_denials := denials,
                error := none }
  | PLine.blank :: ls, sid, rt, dn, la => parseOutputAux ls sid rt dn la
  | PLine.nonJson :: ls, sid, rt, dn, la => parseOutputAux ls sid rt dn la
  | PLine.jsonScalar :: _, _, _, _, _ =>
    Except.error "AttributeError: object has no attribute get"
  | PLine.jsonMsg m :: ls, sid, rt, dn, la =>
    let sid2 := match m.sessionField with
      | none => sid
      | some v => v
    if m.msgType = some "assistant" then
      match extractFromMessage m.message with
      | Except.error e => Except.error e
      | Except.ok c => parseOutputAux ls sid2 rt dn c
    else if m.msgType = some "result" then
      parseOutputAux ls sid2 (m.resultField.getD "")
        (m.denialsField.getD []) la
    else parseOutputAux ls sid2 rt dn la

/-- Whether one stdout line makes `_parse_output` raise: a non-object
JSON line always does (`AttributeError` at `data.get("type")`); an
assistant-typed object line does exactly when
`_extract_assistant_content` raises on its `"message"` entry; every
other line is harmless. -/
def lineRaises : PLine → Bool
  | PLine.jsonScalar => true
  | PLine.jsonMsg m =>
    if m.msgType = some "assistant" then
      match extractFromMessage m.message with
      | Except.error _ => true
      | Except.ok _ => false
    else false
  | _ => false

/-- Embedding of `ClaudeInterface._parse_output` from its initial state. -/
def parse_output (ls : List PLine) : Except String ClaudeResult :=
  parseOutputAux ls none "" [] ""

/-- How far the `execute` subprocess run got (lines 108-133):
`completed` carries the parsed stdout lines when `communicate`
finished within the overall timeout; `timedOut` is the
`asyncio.TimeoutError` branch; `launchFailure` any other exception
raised while creating or driving the subprocess. -/
inductive ExecOutcome where
  | completed (stdoutLines : List PLine)
  | timedOut
  | launchFailure (msg : String)
deriving DecidableEq, Repr

/--
Embedding of `ClaudeInterface.execute` (lines 89-156): on completion the stdout is
parsed by `_parse_output` — an exception raised there (the
`AttributeError` of a non-object JSON line) is caught by the same
`except Exception` handler as launch failures, yielding
`success=False`; the timeout branch yields the fixed message with the
configured timeout.
-/
def execute (timeout : Nat) (o : ExecOutcome) : ClaudeResult :=
  match o with
  | ExecOutcome.completed ls =>
    match parse_output ls with
    | Except.ok r => r
    | Except.error e =>
      { success := false, output := "", error := some e }
  | ExecOutcome.timedOut =>
    { success := false, output := "",
      error := some ("Command timed out after " ++ toString timeout
        ++ " seconds") }
  | ExecOutcome.launchFailure m =>
    { success := false, output := "", error := some m }

/-- On stdout free of raising lines (no non-object JSON line, no
assistant line with an ill-typed message), the parsing loop always
returns a result, and that result has `success=True`, `error=None`. -/
theorem parseOutputAux_ok : ∀ (ls : List PLine) (sid : Option String)
    (rt : String) (dn : List (String × String)) (la : String),
    (∀ l ∈ ls, lineRaises l = false) →
    ∃ r, parseOutputAux ls sid rt dn la = Except.ok r ∧
      r.success = true ∧ r.error = none := by
  intro ls
  induction ls with
  | nil =>
    intro sid rt dn la _
    exact ⟨_, rfl, rfl, rfl⟩
  | cons l ls ih =>
    intro sid rt dn la hns
    have hns2 : ∀ x ∈ ls, lineRaises x = false :=
      fun x hx => hns x (List.mem_cons_of_mem _ hx)
    have hhead := hns l (List.mem_cons_self _ _)
    cases l with
    | blank => exact ih sid rt dn la hns2
    | nonJson => exact ih sid rt dn la hns2
    | jsonScalar => simp [lineRaises] at hhead
    | jsonMsg m =>
      simp only [parseOutputAux]
      by_cases hmt : m.msgType = some "assistant"
      · rw [if_pos hmt]
        simp only [lineRaises, if_pos hmt] at hhead
        cases hex : extractFromMessage m.message with
        | error e => simp [hex] at hhead
        | ok c =>
          simp only [hex]
          exact ih _ rt dn c hns2
      · rw [if_neg hmt]
        by_cases hmr : m.msgType = some "result"
        · rw [if_pos hmr]
          exact ih _ _ _ la hns2
        · rw [if_neg hmr]
          exact ih _ rt dn la hns2

end ClaudeModel

namespace ClaudeModel

/-- The parsing loop only raises on a raising line: an error implies
the stdout contained a non-object JSON line or an assistant line with
an ill-typed message. -/
theorem parseOutputAux_error_mem : ∀ (ls : List PLine)
    (sid : Option String) (rt : String) (dn : List (String × String))
    (la : String) (e : String),
    parseOutputAux ls sid rt dn la = Except.error e →
    ∃ l, l ∈ ls ∧ lineRaises l = true := by
  intro ls
  induction ls with
  | nil =>
    intro sid rt dn la e h
    cases h
  | cons l ls ih =>
    intro sid rt dn la e h
    cases l with
    | blank =>
      obtain ⟨x, hx, hr⟩ := ih _ _ _ _ _ h
      exact ⟨x, List.mem_cons_of_mem _ hx, hr⟩
    | nonJson =>
      obtain ⟨x, hx, hr⟩ := ih _ _ _ _ _ h
      exact ⟨x, List.mem_cons_of_mem _ hx, hr⟩
    | jsonScalar => exact ⟨PLine.jsonScalar, List.mem_cons_self _ _, rfl⟩
    | jsonMsg m =>
      simp only [parseOutputAux] at h
      by_cases hmt : m.msgType = some "assistant"
      · rw [if_pos hmt] at h
        cases hex : extractFromMessage m.message with
        | error e2 =>
          refine ⟨PLine.jsonMsg m, List.mem_cons_self _ _, ?_⟩
          simp [lineRaises, hmt, hex]
        | ok c =>
          simp only [hex] at h
          obtain ⟨x, hx, hr⟩ := ih _ _ _ _ _ h
          exact ⟨x, List.mem_cons_of_mem _ hx, hr⟩
      · rw [if_neg hmt] at h
        by_cases hmr : m.msgType = some "result"
        · rw [if_pos hmr] at h
          obtain ⟨x, hx, hr⟩ := ih _ _ _ _ _ h
          exact ⟨x, List.mem_cons_of_mem _ hx, hr⟩
        · rw [if_neg hmr] at h
          obtain ⟨x, hx, hr⟩ := ih _ _ _ _ _ h
          exact ⟨x, List.mem_cons_of_mem _ hx, hr⟩

/-- Assistant-typed object line `{"type": "assistant", "message":
null}`: `data.get("message", {})` returns `None` — the `{}` default
applies only to a missing key — and `None.get("content", [])` raises
`AttributeError`. -/
def c9nullMsg : JMsg :=
  { msgType := some "assistant", sessionField := none,
    resultField := none, denialsField := none,
    message := JMessage.notDict }

/--
C9 counterexample: a subprocess run that completes without a launch
exception and within the timeout can still yield `success=False` with
`error` set, purely from its output content.  Two concrete stdouts:
the single line `3` (valid JSON, but not an object — `json.loads`
succeeds and `data.get("type")` raises `AttributeError`), and the
single JSON-OBJECT line `{"type": "assistant", "message": null}`
(`None.get("content", [])` raises `AttributeError` inside
`_extract_assistant_content`).  In both runs `execute`'s blanket
`except Exception` handler converts the uncaught parse-time exception
into a failed result — refuting "success=true regardless of the
subprocess's output content".
-/
theorem c9_counterexample :
    (execute 1800 (ExecOutcome.completed [PLine.jsonScalar])).success
      = false ∧
    (execute 1800 (ExecOutcome.completed [PLine.jsonScalar])).error
      = some "AttributeError: object has no attribute get" ∧
    (execute 1800 (ExecOutcome.completed
        [PLine.jsonMsg c9nullMsg])).success = false ∧
    (execute 1800 (ExecOutcome.completed
        [PLine.jsonMsg c9nullMsg])).error
      = some "AttributeError: object has no attribute get" :=
  ⟨rfl, rfl, rfl, rfl⟩

/--
C9 (amended): when the subprocess completes without a launch exception
and within the overall timeout and no stdout line makes output parsing
raise, the returned result has `success=true` and `error=None`
regardless of the content (including empty and non-JSON output);
`success=false` arises only from the timeout, a launch-time exception,
or a stdout line that raises inside `_parse_output` — a line parsing
as non-object JSON (`AttributeError` at `data.get("type")`), or an
assistant-typed object line with an ill-typed `"message"` or
`"content"` (a present non-dict message, a non-iterable content, or a
text block whose text is not a string: `AttributeError`/`TypeError`)
— all caught by the same `except Exception` handler as launch
failures.  This is where the original claim fails.
-/
theorem c9_execute_success (timeout : Nat) (ls : List PLine)
    (hns : ∀ l ∈ ls, lineRaises l = false) :
    (execute timeout (ExecOutcome.completed ls)).success = true ∧
    (execute timeout (ExecOutcome.completed ls)).error = none ∧
    (∀ o : ExecOutcome, (execute timeout o).success = false →
      o = ExecOutcome.timedOut ∨
      (∃ m, o = ExecOutcome.launchFailure m) ∨
      (∃ ls2, o = ExecOutcome.completed ls2 ∧
        ∃ l, l ∈ ls2 ∧ lineRaises l = true)) := by
  obtain ⟨r, hr, hs, he⟩ := parseOutputAux_ok ls none "" [] "" hns
  have hex : execute timeout (ExecOutcome.completed ls) = r := by
    simp only [execute, parse_output, hr]
  refine ⟨by rw [hex]; exact hs, by rw [hex]; exact he, ?_⟩
  intro o hfail
  cases o with
  | timedOut => exact Or.inl rfl
  | launchFailure m => exact Or.inr (Or.inl ⟨m, rfl⟩)
  | completed ls2 =>
    refine Or.inr (Or.inr ⟨ls2, rfl, ?_⟩)
    by_contra hmem
    push_neg at hmem
    have hns2 : ∀ l ∈ ls2, lineRaises l = false := by
      intro l hl
      have hne := hmem l hl
      cases hb : lineRaises l
      · rfl
      · exact absurd hb hne
    obtain ⟨r2, hr2, hs2, _⟩ := parseOutputAux_ok ls2 none "" [] "" hns2
    have hex2 : execute timeout (ExecOutcome.completed ls2) = r2 := by
      simp only [execute, parse_output, hr2]
    rw [hex2] at hfail
    rw [hfail] at hs2
    cases hs2

/-- Concrete result-message line for the C9 witness. -/
def c9msg : JMsg :=
  { msgType := some "result", sessionField := some (some "s1"),
    resultField := some "done", denialsField := some [("Write", "x")],
    message := JMessage.absent }

/-- Concrete well-typed assistant line for the C9 witness: a dict
message whose content is a list with a text block, a tool-use block, a
foreign dict and a non-dict item. -/
def c9okAssistant : JMsg :=
  { msgType := some "assistant", sessionField := none,
    resultField := none, denialsField := none,
    message := JMessage.dictWith (JContentField.blocks
      [ContentBlock.text "hello", ContentBlock.toolUse "Read",
       ContentBlock.otherDict, ContentBlock.nonDict]) }

/-- Witness for `c9_execute_success` on a concrete stdout with a blank
line, a non-JSON line, a well-typed assistant object and a result
object. -/
theorem c9_execute_success_witness :
    (∀ l ∈ [PLine.blank, PLine.nonJson, PLine.jsonMsg c9okAssistant,
        PLine.jsonMsg c9msg], lineRaises l = false) ∧
    ((execute 1800 (ExecOutcome.completed
        [PLine.blank, PLine.nonJson, PLine.jsonMsg c9okAssistant,
         PLine.jsonMsg c9msg])).success = true ∧
     (execute 1800 (ExecOutcome.completed
        [PLine.blank, PLine.nonJson, PLine.jsonMsg c9okAssistant,
         PLine.jsonMsg c9msg])).error = none ∧
     (∀ o : ExecOutcome, (execute 1800 o).success = false →
       o = ExecOutcome.timedOut ∨
       (∃ m, o = ExecOutcome.launchFailure m) ∨
       (∃ ls2, o = ExecOutcome.completed ls2 ∧
         ∃ l, l ∈ ls2 ∧ lineRaises l = true))) :=
  ⟨by decide,
   c9_execute_success 1800 [PLine.blank, PLine.nonJson,
     PLine.jsonMsg c9okAssistant, PLine.jsonMsg c9msg] (by decide)⟩

end ClaudeModel

namespace BotModel

/-- Lookup in a string-to-string dict (association list model), used
for `config.projects` (name to working-directory path, the only field
of `ProjectConfig` this path reads) and for `SessionManager`'s
project-to-session-id map. -/
def lookupStr (m : List (String × String)) (k : String) : Option String :=
  (m.find? (fun p => p.1 = k)).map (fun p => p.2)

/-- Assignment in a string-to-string dict. -/
def setStr (m : List (String × String)) (k v : String) :
    List (String × String) :=
  m.filter (fun p => ¬ p.1 = k) ++ [(k, v)]

/-- The outward-visible actions of `TelegramBot` methods: log lines,
Telegram messages and documents, Executor invocations
(`self.claude.execute`), and `QueueManager.enqueue` calls. -/
inductive Effect where
  | logError (msg : String)
  | sendMessage (chatId : Int) (text : String)
  | executorCall (prompt workingDir : String) (sessionId : Option String)
      (approvalMode : String)
  | sendDocument (chatId : Int) (path : String)
  | enqueueCall (project : String)
deriving DecidableEq, Repr

/-- Recognises a `QueueManager.enqueue` call. -/
def isEnqueueEffect : Effect → Bool
  | Effect.enqueueCall _ => true
  | _ => false

/-- Recognises a `ClaudeInterface.execute` call. -/
def isExecutorEffect : Effect → Bool
  | Effect.executorCall _ _ _ _ => true
  | _ => false

/--
Embedding of `TelegramBot._execute_scheduled_task` (`src/telegram_bot.py` lines
554-604), the callback passed to `ScheduledTaskManager.start` at line
92.  Unknown project: log and return.  Otherwise: notify the chat,
read the stored session id, invoke the Executor DIRECTLY
(`await self.claude.execute(...)`, line 573, with `approval_mode =
"safe"` — the source comments "simplified - no approval flow for
scheduled tasks"); store a returned session id; send the processed
output (`processed` stands for the pair returned by the out-of-scope
`OutputProcessor.process` collaborator) and optionally a document.
The method never touches `self.queue`.  Returns the emitted effects
and the updated session map.
-/
def execute_scheduled_task (projects : List (String × String))
    (sessions : List (String × String)) (task : SchedModel.ScheduledTask)
    (result : ClaudeModel.ClaudeResult)
    (processed : String × Option String) :
    List Effect × List (String × String) :=
  match lookupStr projects task.project_name with
  | none =>
    ([Effect.logError ("Scheduled task " ++ task.task_id ++ ": project "
        ++ task.project_name ++ " not found")], sessions)
  | some path =>
    let startText := "⏰ Running scheduled task (" ++ task.task_id
      ++ ")\nProject: #" ++ task.project_name ++ "\nPrompt: "
      ++ task.prompt.take 50
      ++ (if task.prompt.length > 50 then "..." else "")
    let sid := lookupStr sessions task.project_name
    let sessions2 := match result.session_id with
      | some s => setStr sessions task.project_name s
      | none => sessions
    let resText := "⏰ Scheduled task result (" ++ task.task_id
      ++ "):\n\n" ++ processed.1
    let docEffs := match processed.2 with
      | some p => [Effect.sendDocument task.chat_id p]
      | none => []
    ([Effect.sendMessage task.chat_id startText,
      Effect.executorCall task.prompt path sid "safe",
      Effect.sendMessage task.chat_id resText] ++ docEffs, sessions2)

/--
The submission tail of `TelegramBot._handle_message` (lines 704-719):
a manually submitted task is wrapped in a `QueuedTask` and handed to
`QueueManager.enqueue` — the manual orchestration path enters the
per-project queue.  Returns the queue position and new queue state
together with the emitted effect.
-/
def submit_manual_task (qs : QueueModel.QState)
    (t : QueueModel.QueuedTask) :
    (Nat × QueueModel.QState) × List Effect :=
  (QueueModel.enqueueOp qs t, [Effect.enqueueCall t.project_name])

/-- Concrete scheduled task for the C2 counterexample. -/
def c2task : SchedModel.ScheduledTask :=
  { task_id := "s1", chat_id := 10, project_name := "web",
    prompt := "nightly build", schedule_type := "daily",
    next_run := { day := 4, hour := 2, minute := 0, second := 0,
                  microsecond := 0 },
    enabled := true, time_of_day := "02:00", day_of_week := none,
    last_run := none }

/-- Concrete Executor result for the C2 counterexample. -/
def c2result : ClaudeModel.ClaudeResult :=
  { success := true, output := "ok", session_id := some "s9",
    permission_denials := [], error := none }

/-- Concrete manual task for the C2 counterexample, same project. -/
def c2mtask : QueueModel.QueuedTask :=
  { project_name := "web", prompt := "fix bug", image_paths := [],
    message_id := 3, chat_id := 10 }

/--
C2 counterexample: executing a concrete scheduler-originated task for
project "web" emits a direct Executor call and NO
`QueueManager.enqueue` call, while the manual submission path for the
same project does enqueue — scheduler-originated tasks do not enter
the per-project queue, refuting the claim that they share the manual
tasks' queue and orchestration path (and hence its serialisation).
-/
theorem c2_counterexample :
    (execute_scheduled_task [("web", "/home/u/web")] [] c2task c2result
        ("ok", none)).1.any isEnqueueEffect = false ∧
    (execute_scheduled_task [("web", "/home/u/web")] [] c2task c2result
        ("ok", none)).1.any isExecutorEffect = true ∧
    (submit_manual_task QueueModel.initQ c2mtask).2.any isEnqueueEffect
      = true :=
  ⟨rfl, rfl, rfl⟩

/--
C2 (amended): a scheduler-originated task never enters the per-project
queue: for every configuration, session map, task, Executor result and
processed output, `_execute_scheduled_task` emits no
`QueueManager.enqueue` call, and it invokes the Executor directly —
exactly once when the task's project is configured, zero times when it
is unknown.  (So a scheduled task is NOT serialised against manually
submitted tasks of the same project, which go through
`QueueManager.enqueue`; it can run concurrently with them.)
-/
theorem c2_scheduler_bypasses_queue (projects : List (String × String))
    (sessions : List (String × String))
    (task : SchedModel.ScheduledTask)
    (result : ClaudeModel.ClaudeResult)
    (processed : String × Option String) :
    (execute_scheduled_task projects sessions task result
        processed).1.any isEnqueueEffect = false ∧
    (execute_scheduled_task projects sessions task result
        processed).1.countP isExecutorEffect
      = (if (lookupStr projects task.project_name).isSome then 1
         else 0) := by
  cases hl : lookupStr projects task.project_name with
  | none =>
    simp only [execute_scheduled_task, hl]
    constructor
    · simp [isEnqueueEffect]
    · simp [isExecutorEffect, List.countP_cons]
  | some path =>
    simp only [execute_scheduled_task, hl]
    obtain ⟨mt, fp⟩ := processed
    cases fp with
    | none =>
      constructor
      · simp [isEnqueueEffect]
      · simp [isExecutorEffect, List.countP_cons]
    | some p =>
      constructor
      · simp [isEnqueueEffect]
      · simp [isExecutorEffect, List.countP_cons]

end BotModel
